import Mathlib

/-!
Verification of the Intuis Connect integration's resilient request layer and
override-reconciliation loop, as a shallow embedding in Lean 4.

The definitions in this file are translated from the Python sources:

* `custom_components/intuis_connect/intuis_api/api.py`
  (`RateLimitCircuitBreaker`, `IntuisAPI._async_request`)
* `custom_components/intuis_connect/intuis_data.py`
  (`IntuisData._get_logical_day`, `IntuisData.async_update`)
* `custom_components/intuis_connect/utils/const.py` (the numeric defaults)

Wall-clock instants and float-valued durations are modelled as rationals
(the concrete constants 30.0, 120.0, 1.5, ... are exactly representable
binary floats, and the arithmetic the code performs on them — doubling,
`min`, addition — is exact in IEEE floats for these magnitudes).
Fallible operations return explicit outcome values; an exception
propagating out of a Python function is modelled as an explicit
`raised`/error component of the result.
-/

namespace Intuis

/-! ## Python exception classes relevant to the hook handler

`RateLimitCircuitBreaker.record_429` wraps the user hook in
`except (TypeError, ValueError, RuntimeError)`.  Exceptions of any other
class (represented here by `otherError`) are not caught there. -/

inductive PyExc where
  | typeError
  | valueError
  | runtimeError
  | otherError
  deriving DecidableEq, Repr

/-- The classes caught by the `except (TypeError, ValueError, RuntimeError)`
clause inside `record_429` (api.py line 117). -/
def caughtByHookHandler : PyExc → Bool
  | .typeError => true
  | .valueError => true
  | .runtimeError => true
  | .otherError => false

/-! ## RateLimitCircuitBreaker (api.py lines 62–151) -/

/-- Mutable state of `RateLimitCircuitBreaker`:
`_consecutive_429s` and `_circuit_open_until`. -/
structure CBState where
  consecutive429s : ℕ
  circuitOpenUntil : Option ℚ
  deriving DecidableEq, Repr

/-- Constructor parameters of `RateLimitCircuitBreaker`:
`threshold`, `base_cooldown`, `max_cooldown`. -/
structure CBConfig where
  threshold : ℕ
  baseCooldown : ℚ
  maxCooldown : ℚ
  deriving DecidableEq, Repr

/-- Defaults used by `IntuisAPI.__init__` (api.py lines 212–216):
threshold `DEFAULT_CIRCUIT_THRESHOLD = 3`, base cooldown 30.0 s,
max cooldown 120.0 s. -/
def defaultCBConfig : CBConfig := ⟨3, 30, 120⟩

/-- The behaviour of the registered rate-limit hook at the moment it is
invoked: `none` = no callback registered; `some none` = the callback runs
and returns; `some (some e)` = the callback raises an exception of class
`e`. -/
abbrev HookBehavior := Option (Option PyExc)

/-- Result of one `record_429` call.  `ret` is the value the Python function
returns (`none` when an uncaught hook exception propagates instead of a
return); `raised` is the exception class that propagates, if any. -/
structure Record429Out where
  state : CBState
  ret : Option ℚ
  raised : Option PyExc
  deriving DecidableEq, Repr

/-- Shallow embedding of `RateLimitCircuitBreaker.record_429`
(api.py lines 93–120).

The counter is incremented first.  If it has reached `threshold`, the
cooldown `min(base_cooldown * 2 ** (count - threshold), max_cooldown)` is
computed, `_circuit_open_until` is set to `now + cooldown`, the registered
hook is invoked with `TypeError`/`ValueError`/`RuntimeError` swallowed, and
the cooldown is returned.  Below threshold the function returns `0`
without touching `_circuit_open_until`. -/
def record429 (cfg : CBConfig) (s : CBState) (now : ℚ)
    (hook : HookBehavior) : Record429Out :=
  let n := s.consecutive429s + 1
  if n ≥ cfg.threshold then
    let multiplier : ℚ := 2 ^ (n - cfg.threshold)
    let cooldown := min (cfg.baseCooldown * multiplier) cfg.maxCooldown
    let s' : CBState := ⟨n, some (now + cooldown)⟩
    match hook with
    | some (some e) =>
        if caughtByHookHandler e then ⟨s', some cooldown, none⟩
        else ⟨s', none, some e⟩
    | _ => ⟨s', some cooldown, none⟩
  else
    ⟨⟨n, s.circuitOpenUntil⟩, some 0, none⟩

/-- Shallow embedding of `RateLimitCircuitBreaker.record_success`
(api.py lines 122–127): resets the counter and clears the window. -/
def recordSuccess (_s : CBState) : CBState := ⟨0, none⟩

/-- Shallow embedding of `RateLimitCircuitBreaker.check`
(api.py lines 129–141): returns the remaining wait and lazily clears an
elapsed window.  Returns the new state and the remaining wait. -/
def cbCheck (s : CBState) (now : ℚ) : CBState × ℚ :=
  match s.circuitOpenUntil with
  | some t =>
      let remaining := t - now
      if remaining > 0 then (s, remaining) else (⟨s.consecutive429s, none⟩, 0)
  | none => (s, 0)

/-! ## IntuisAPI._async_request (api.py lines 267–417)

The retry loop is modelled as a function consuming a list of per-attempt
network outcomes: the n-th element of the list is what
`self._session.request(...)` yields on the n-th attempt (across the outer
call and, after a 401, the single recursive call, in order).  The
`Retry-After` header is modelled as already read: `none` = header absent,
`some none` = header present but not a parseable float (the `ValueError`
arm), `some (some v)` = header parsed to the value `v`.  Circuit-breaker
and throttler interactions of the loop are not tracked here; the breaker
is modelled separately above. -/

/-- One network attempt outcome: an HTTP response with a status code and an
optional `Retry-After` header, or a transport/timeout failure
(`aiohttp.ClientError` / `asyncio.TimeoutError`). -/
inductive HttpAttempt where
  | status (code : ℕ) (retryAfter : Option (Option ℚ))
  | netError
  deriving DecidableEq, Repr

/-- How `_async_request` terminates, seen by its caller.

`apiError` is the `APIError` raised by the
`except aiohttp.ClientResponseError` clause (api.py lines 395–398);
`httpError` stands for a raw `aiohttp.ClientResponseError` escaping to the
caller un-wrapped — the code never produces it, it exists to state the
spec's "raises the underlying HTTP error" reading.  `noResponse` is a
model artefact for an exhausted outcome list (the real session always
yields an outcome). -/
inductive ReqOutcome where
  | success (code : ℕ)
  | apiError (code : ℕ)
  | httpError (code : ℕ)
  | rateLimitError
  | cannotConnect
  | invalidAuth
  | noResponse
  deriving DecidableEq, Repr

/-- `DEFAULT_RATE_LIMIT_MAX_DELAY = 60` (const.py line 152). -/
def rateLimitMaxDelay : ℚ := 60

/-- `server_attempts = 3` (api.py line 315). -/
def serverAttempts : ℕ := 3

/-- `DEFAULT_RATE_LIMIT_ATTEMPTS = 5` (const.py line 153, api.py line 316). -/
def rateLimitAttempts : ℕ := 5

/-- The retry loop of `_async_request` (api.py lines 323–413) together with
the 401-refresh recursion (lines 330–335).

Arguments: `rateDelay` is `self._rate_limit_delay`; `attempts` the pending
network outcomes; `attempt` the loop counter (starting at 1);
`serverDelay` the current 5xx/network backoff delay; `retry` the `retry`
parameter; `refreshOk` whether `async_refresh_access_token` succeeds when
invoked.  Returns the outcome and the list of back-off sleep durations
performed, in order. -/
def reqStep (rateDelay : ℚ) :
    List HttpAttempt → ℕ → ℚ → Bool → Bool → ReqOutcome × List ℚ
  | [], _, _, _, _ => (.noResponse, [])
  | .netError :: rest, attempt, serverDelay, retry, refreshOk =>
      if attempt < serverAttempts then
        let r := reqStep rateDelay rest (attempt + 1) (serverDelay * 2) retry refreshOk
        (r.1, serverDelay :: r.2)
      else (.cannotConnect, [])
  | .status code retryAfter :: rest, attempt, serverDelay, retry, refreshOk =>
      if code = 401 ∧ retry then
        -- refresh the token, then re-enter the whole routine once with
        -- retry=False (fresh attempt counter and backoff state)
        if refreshOk then reqStep rateDelay rest 1 (3/2) false refreshOk
        else (.invalidAuth, [])
      else if code = 429 then
        -- breaker.record_429() happens here (modelled separately)
        if attempt < rateLimitAttempts then
          let delay :=
            match retryAfter with
            | some (some v) => min v rateLimitMaxDelay
            | some none => rateDelay
            | none => min (rateDelay * 2 ^ (attempt - 1)) rateLimitMaxDelay
          let r := reqStep rateDelay rest (attempt + 1) serverDelay retry refreshOk
          (r.1, delay :: r.2)
        else (.rateLimitError, [])
      else if 500 ≤ code ∧ code < 600 then
        if attempt < serverAttempts then
          let r := reqStep rateDelay rest (attempt + 1) (serverDelay * 2) retry refreshOk
          (r.1, serverDelay :: r.2)
        else
          -- resp.raise_for_status() raises ClientResponseError, which the
          -- except clause at line 395 converts into APIError
          (.apiError code, [])
      else if 400 ≤ code then
        -- raise_for_status → ClientResponseError → APIError (lines 391,395–398)
        (.apiError code, [])
      else
        -- success: breaker.record_success(), return resp
        (.success code, [])

/-- Entry point of `_async_request`: attempt counter 1, `server_delay = 1.5`
(api.py lines 315–323). -/
def asyncRequest (rateDelay : ℚ) (attempts : List HttpAttempt)
    (retry refreshOk : Bool) : ReqOutcome × List ℚ :=
  reqStep rateDelay attempts 1 (3/2) retry refreshOk

/-! ## Logical day (intuis_data.py lines 79–93)

`IntuisData._get_logical_day` calls `(now - timedelta(days=1)).date()` /
`now.date()` and returns the ISO string.  The Gregorian calendar arithmetic
performed by `datetime` is embedded below. -/

/-- A Gregorian calendar date. -/
structure Date where
  year : ℕ
  month : ℕ
  day : ℕ
  deriving DecidableEq, Repr

/-- Gregorian leap-year rule, as implemented by Python's `datetime`. -/
def isLeapYear (y : ℕ) : Bool :=
  y % 4 = 0 && (y % 100 ≠ 0 || y % 400 = 0)

/-- Number of days in a month of a given year. -/
def daysInMonth (y m : ℕ) : ℕ :=
  match m with
  | 1 => 31
  | 2 => if isLeapYear y then 29 else 28
  | 3 => 31
  | 4 => 30
  | 5 => 31
  | 6 => 30
  | 7 => 31
  | 8 => 31
  | 9 => 30
  | 10 => 31
  | 11 => 30
  | 12 => 31
  | _ => 0

/-- The calendar date one day earlier, i.e. what
`(now - timedelta(days=1)).date()` evaluates to. -/
def predDate (d : Date) : Date :=
  if 1 < d.day then ⟨d.year, d.month, d.day - 1⟩
  else if 1 < d.month then ⟨d.year, d.month - 1, daysInMonth d.year (d.month - 1)⟩
  else ⟨d.year - 1, 12, 31⟩

/-- The calendar date one day later (used to check that `predDate` really is
the previous calendar date). -/
def succDate (d : Date) : Date :=
  if d.day < daysInMonth d.year d.month then ⟨d.year, d.month, d.day + 1⟩
  else if d.month < 12 then ⟨d.year, d.month + 1, 1⟩
  else ⟨d.year + 1, 1, 1⟩

/-- A well-formed calendar date. -/
def Date.Valid (d : Date) : Prop :=
  1 ≤ d.year ∧ 1 ≤ d.month ∧ d.month ≤ 12 ∧ 1 ≤ d.day ∧
    d.day ≤ daysInMonth d.year d.month

instance (d : Date) : Decidable d.Valid := by
  unfold Date.Valid; infer_instance

/-- Zero-padded two-digit rendering used by `date.isoformat()`. -/
def pad2 (n : ℕ) : String :=
  if n < 10 then "0" ++ toString n else toString n

/-- Zero-padded four-digit year rendering used by `date.isoformat()`. -/
def pad4 (n : ℕ) : String :=
  if n < 10 then "000" ++ toString n
  else if n < 100 then "00" ++ toString n
  else if n < 1000 then "0" ++ toString n
  else toString n

/-- `date.isoformat()`: `YYYY-MM-DD`. -/
def Date.isoformat (d : Date) : String :=
  pad4 d.year ++ "-" ++ pad2 d.month ++ "-" ++ pad2 d.day

/-- Shallow embedding of `IntuisData._get_logical_day`
(intuis_data.py lines 79–93): `now` is split into its calendar date and its
hour; before the reset hour the previous calendar date is returned,
otherwise today's. -/
def getLogicalDay (nowDate : Date) (nowHour : ℕ) (resetHour : ℕ) : String :=
  if nowHour < resetHour then (predDate nowDate).isoformat
  else nowDate.isoformat

/-! ## Day-boundary reset (intuis_data.py lines 95–121)

The prologue of `IntuisData.async_update`: it runs before the home-status
fetch, the override reconciliation and the energy fetch.  The `_date`
marker entry stored in the energy cache is an ordinary entry of the cached
dictionary and is cleared with it. -/

/-- The parts of `IntuisData` state touched by the day-boundary check:
`_energy_cache`, `_minutes_counter`, `_last_logical_day`. -/
structure EnergyState where
  energyCache : List (String × ℚ)
  minutesCounter : List (String × ℕ)
  lastLogicalDay : Option String
  deriving DecidableEq, Repr

/-- Shallow embedding of intuis_data.py lines 104–121: when a previous
logical day was recorded and differs from the current one, both the
minutes counter and the energy cache are cleared; in every case the
current logical day is recorded. -/
def resetCountersIfNewDay (s : EnergyState) (currentLogicalDay : String) :
    EnergyState :=
  let isNewLogicalDay :=
    match s.lastLogicalDay with
    | some prev => decide (prev ≠ currentLogicalDay)
    | none => false
  if isNewLogicalDay then ⟨[], [], some currentLogicalDay⟩
  else { s with lastLogicalDay := some currentLogicalDay }

/-! ## Override reconciliation (intuis_data.py lines 139–235)

The override dictionary is modelled as an association list with distinct
keys (a Python dict).  The executor `IntuisAPI.async_set_room_state` is
modelled by a function giving, per room, the outcome of the call this
cycle.  The reconciliation loop catches `APIError`, `CannotConnect` and
`RateLimitError` (line 209); an `InvalidAuth` raised by the executor (for
example from a failed token refresh inside `_async_request`) matches none
of these and propagates out of `async_update` — modelled by the `raised`
flag, which aborts the cycle before the expiry pops and the save hook. -/

/-- `INDEFINITE_REAPPLY_BUFFER = 300` (intuis_data.py line 34). -/
def reapplyBuffer : ℤ := 300

/-- `MIN_REAPPLY_INTERVAL = 120` (intuis_data.py line 37). -/
def minReapplyInterval : ℤ := 120

/-- One sticky override entry
`{ mode, temp, end, sticky, last_reapply }` (intuis_data.py line 61). -/
structure Override where
  mode : String
  temp : Option ℚ
  endTs : ℤ
  sticky : Bool
  lastReapply : ℤ
  deriving DecidableEq, Repr

/-- The configured options read by the reconciler, with their defaults
already resolved (`options.get(key, default)`):
`manual_duration = 60`, `away_duration = 240`, `boost_duration = 30`,
`indefinite_mode = false` (const.py lines 14–16, 80). -/
structure Options where
  manualDuration : ℕ
  awayDuration : ℕ
  boostDuration : ℕ
  indefiniteMode : Bool
  deriving DecidableEq, Repr

/-- Duration resolution for an override's mode (intuis_data.py lines
172–177): start from the manual duration, switch on `API_MODE_AWAY` /
`API_MODE_BOOST`; every other mode (including the frost-protect mode
`"hg"` written by `async_set_preset_mode`) keeps the manual duration. -/
def resolveDuration (opts : Options) (mode : String) : ℕ :=
  let durationMin := opts.manualDuration
  if mode = "away" then opts.awayDuration
  else if mode = "boost" then opts.boostDuration
  else durationMin

/-- Outcome of one `async_set_room_state` call as seen by the reconciler. -/
inductive ExecResult where
  | ok
  | errAPI
  | errConnect
  | errRateLimit
  | errAuth
  deriving DecidableEq, Repr

/-- The exceptions caught by the reapply handler
(intuis_data.py line 209: `except (APIError, CannotConnect,
RateLimitError)`). -/
def caughtByReapplyHandler : ExecResult → Bool
  | .errAPI => true
  | .errConnect => true
  | .errRateLimit => true
  | _ => false

/-- A recorded executor invocation: room, mode, temperature, duration in
minutes (intuis_data.py lines 199–204). -/
structure CallRec where
  roomId : String
  mode : String
  temp : Option ℚ
  duration : ℕ
  deriving DecidableEq, Repr

/-- Association-list lookup (`self._overrides.get(room_id)`). -/
def ovLookup : List (String × Override) → String → Option Override
  | [], _ => none
  | (k, v) :: rest, r => if k = r then some v else ovLookup rest r

/-- Association-list update of an existing key
(`self._overrides[room_id][...] = ...`). -/
def ovSet : List (String × Override) → String → Override →
    List (String × Override)
  | [], _, _ => []
  | (k, v) :: rest, r, nv =>
      if k = r then (k, nv) :: rest else (k, v) :: ovSet rest r nv

/-- Loop state of the reconciliation pass: the override map, the
`rooms_to_clear` list, the `overrides_changed` flag, plus ghost
instrumentation (executor invocations, counts of successful re-applies
and of expiry removals). -/
structure RecState where
  ovs : List (String × Override)
  toClear : List String
  changed : Bool
  calls : List CallRec
  reapplies : ℕ
  expiries : ℕ
  deriving DecidableEq, Repr

/-- One iteration of the per-room loop (intuis_data.py lines 158–227) for
the room `roomId` of the fresh snapshot.  Returns the new state and
whether an uncaught `InvalidAuth` propagated. -/
def roomStep (opts : Options) (nowTs : ℤ) (exec : String → ExecResult)
    (st : RecState) (roomId : String) : RecState × Bool :=
  match ovLookup st.ovs roomId with
  | none => (st, false)
  | some ov =>
    if !ov.sticky then (st, false)
    else
      let durationMin := resolveDuration opts ov.mode
      if opts.indefiniteMode then
        let timeUntilExpiry := ov.endTs - nowTs
        let timeSinceLastReapply := nowTs - ov.lastReapply
        if timeUntilExpiry ≤ reapplyBuffer ∧
            timeSinceLastReapply ≥ minReapplyInterval then
          let call : CallRec := ⟨roomId, ov.mode, ov.temp, durationMin⟩
          match exec roomId with
          | .ok =>
              ({ st with
                  ovs := ovSet st.ovs roomId
                    { ov with endTs := nowTs + (durationMin : ℤ) * 60,
                              lastReapply := nowTs },
                  changed := true,
                  calls := st.calls ++ [call],
                  reapplies := st.reapplies + 1 }, false)
          | .errAuth => ({ st with calls := st.calls ++ [call] }, true)
          | _ => ({ st with calls := st.calls ++ [call] }, false)
        else (st, false)
      else
        if nowTs > ov.endTs then
          ({ st with toClear := st.toClear ++ [roomId], changed := true,
                     expiries := st.expiries + 1 }, false)
        else (st, false)

/-- The per-room loop over the snapshot's rooms, stopping at the first
propagated exception. -/
def foldRooms (opts : Options) (nowTs : ℤ) (exec : String → ExecResult) :
    RecState → List String → RecState × Bool
  | st, [] => (st, false)
  | st, r :: rest =>
      if (roomStep opts nowTs exec st r).2 then
        ((roomStep opts nowTs exec st r).1, true)
      else foldRooms opts nowTs exec (roomStep opts nowTs exec st r).1 rest

/-- Result of one reconciliation pass. -/
structure CycleResult where
  ovs : List (String × Override)
  changed : Bool
  saves : ℕ
  calls : List CallRec
  raised : Bool
  orphans : List String
  reapplies : ℕ
  expiries : ℕ
  deriving Repr

/-- Shallow embedding of the override-processing phase of
`IntuisData.async_update` (intuis_data.py lines 144–235): orphan sweep,
per-room reconciliation, removal of `rooms_to_clear`, and the single
conditional persistence call (`if overrides_changed and
self._save_overrides: await self._save_overrides()`).

A propagated `InvalidAuth` (`raised = true`) aborts the phase: the pops
and the save call never run, and the partially mutated map survives. -/
def reconcileOverrides (opts : Options) (nowTs : ℤ)
    (exec : String → ExecResult) (snapshotRooms : List String)
    (ovs0 : List (String × Override)) (savePresent : Bool) : CycleResult :=
  let orphans := (ovs0.filter (fun p => decide (p.1 ∉ snapshotRooms))).map
    Prod.fst
  let st0 : RecState := ⟨ovs0, orphans, !orphans.isEmpty, [], 0, 0⟩
  let res := foldRooms opts nowTs exec st0 snapshotRooms
  if res.2 then
    ⟨res.1.ovs, res.1.changed, 0, res.1.calls, true, orphans,
      res.1.reapplies, res.1.expiries⟩
  else
    let st := res.1
    ⟨st.ovs.filter (fun p => decide (p.1 ∉ st.toClear)),
      st.changed,
      if st.changed && savePresent then 1 else 0,
      st.calls, false, orphans, st.reapplies, st.expiries⟩

/-! ## Theorems -/

/-- Cooldown computed when the circuit opens at counter value `n`. -/
def cooldownAt (cfg : CBConfig) (n : ℕ) : ℚ :=
  min (cfg.baseCooldown * 2 ^ (n - cfg.threshold)) cfg.maxCooldown

/-- C1: `record_429` increments the consecutive-failure counter; below the
threshold it returns 0 and leaves `open_until` as it was (in particular
still unset, by the breaker invariant that it is only ever set at or above
threshold); once the counter reaches or exceeds the threshold it computes
`cooldown = min(base_cooldown * 2 ** (failures - threshold), max_cooldown)`,
sets `open_until = now + cooldown`, and — whenever the call returns rather
than propagating a hook exception — returns that cooldown. -/
theorem record429_spec (cfg : CBConfig) (s : CBState) (now : ℚ)
    (hook : HookBehavior) :
    (record429 cfg s now hook).state.consecutive429s =
      s.consecutive429s + 1 ∧
    (s.consecutive429s + 1 < cfg.threshold →
      (record429 cfg s now hook).ret = some 0 ∧
      (record429 cfg s now hook).state.circuitOpenUntil =
        s.circuitOpenUntil ∧
      (record429 cfg s now hook).raised = none) ∧
    (cfg.threshold ≤ s.consecutive429s + 1 →
      (record429 cfg s now hook).state.circuitOpenUntil =
        some (now + cooldownAt cfg (s.consecutive429s + 1)) ∧
      ((record429 cfg s now hook).raised = none →
        (record429 cfg s now hook).ret =
          some (cooldownAt cfg (s.consecutive429s + 1)))) := by
  by_cases h : cfg.threshold ≤ s.consecutive429s + 1
  · rcases hook with _ | e
    · simp [record429, h, cooldownAt]
    · rcases e with _ | e
      · simp [record429, h, cooldownAt]
      · by_cases hc : caughtByHookHandler e = true <;>
          simp [record429, h, cooldownAt, hc]
  · have h' : ¬ s.consecutive429s + 1 ≥ cfg.threshold := h
    simp [record429, h']

/-- Closed instance of `record429_spec`: third consecutive failure at the
default configuration opens the circuit with a 30 s cooldown. -/
theorem record429_spec_witness :
    (3 ≤ 2 + 1) ∧
    ((record429 defaultCBConfig ⟨2, none⟩ 1000 none).state.circuitOpenUntil =
        some (1000 + cooldownAt defaultCBConfig (2 + 1)) ∧
      ((record429 defaultCBConfig ⟨2, none⟩ 1000 none).raised = none →
        (record429 defaultCBConfig ⟨2, none⟩ 1000 none).ret =
          some (cooldownAt defaultCBConfig (2 + 1)))) :=
  ⟨by decide,
   (record429_spec defaultCBConfig ⟨2, none⟩ 1000 none).2.2 (by decide)⟩

/-- C8 counterexample: the hook handler catches only `TypeError`,
`ValueError` and `RuntimeError`; a hook raising any other exception class
propagates out of `record_429`, contradicting "any exception raised inside
the hook is swallowed ... and never propagates". -/
theorem hook_other_exception_propagates :
    (record429 defaultCBConfig ⟨2, none⟩ 1000
        (some (some PyExc.otherError))).raised = some PyExc.otherError ∧
    (record429 defaultCBConfig ⟨2, none⟩ 1000
        (some (some PyExc.otherError))).ret = none := by
  decide

/-- C8 (amended): when the circuit opens and the registered hook raises, a
`TypeError`/`ValueError`/`RuntimeError` is swallowed and the cooldown is
still returned; an exception of any other class propagates to the caller
of `record_429` and nothing is returned. -/
theorem hook_exception_spec (cfg : CBConfig) (s : CBState) (now : ℚ)
    (e : PyExc) (hopen : cfg.threshold ≤ s.consecutive429s + 1) :
    (caughtByHookHandler e = true →
      (record429 cfg s now (some (some e))).raised = none ∧
      (record429 cfg s now (some (some e))).ret =
        some (cooldownAt cfg (s.consecutive429s + 1))) ∧
    (caughtByHookHandler e = false →
      (record429 cfg s now (some (some e))).raised = some e ∧
      (record429 cfg s now (some (some e))).ret = none) := by
  by_cases hc : caughtByHookHandler e = true <;>
    simp [record429, hopen, cooldownAt, hc]

/-- Closed instance of `hook_exception_spec`: a `ValueError` raised by the
hook is swallowed and the 30 s cooldown is still returned. -/
theorem hook_exception_spec_witness :
    (3 ≤ 2 + 1) ∧ (caughtByHookHandler PyExc.valueError = true) ∧
    ((record429 defaultCBConfig ⟨2, none⟩ 1000
        (some (some PyExc.valueError))).raised = none ∧
      (record429 defaultCBConfig ⟨2, none⟩ 1000
        (some (some PyExc.valueError))).ret =
        some (cooldownAt defaultCBConfig (2 + 1))) :=
  ⟨by decide, by decide,
   (hook_exception_spec defaultCBConfig ⟨2, none⟩ 1000 PyExc.valueError
      (by decide)).1 (by decide)⟩

/-- C3 counterexample: a request whose first attempt and whose post-refresh
retry both return 401 fails with `APIError` (the retry's 401 goes through
`raise_for_status` and the `except aiohttp.ClientResponseError` clause),
not with the terminal `InvalidAuth` the claim states. -/
theorem second401_not_invalidAuth :
    (asyncRequest 30 [.status 401 none, .status 401 none] true true).1 =
      .apiError 401 ∧
    (asyncRequest 30 [.status 401 none, .status 401 none] true true).1 ≠
      .invalidAuth := by
  decide

/-- C3 (amended): on a 401 with the single retry still available and a
successful token refresh, the executor re-enters the request routine
exactly once more with the retry flag cleared (fresh attempt counter and
backoff); a 401 on that retried call is terminal and surfaces as
`APIError` (the wrapped `ClientResponseError`), not `InvalidAuth`. -/
theorem retry401_spec (rateDelay : ℚ) (ra : Option (Option ℚ))
    (rest : List HttpAttempt) (attempt : ℕ) (serverDelay : ℚ) :
    reqStep rateDelay (.status 401 ra :: rest) attempt serverDelay true true =
      reqStep rateDelay rest 1 (3/2) false true ∧
    ∀ refreshOk : Bool,
      reqStep rateDelay (.status 401 ra :: rest) attempt serverDelay false
        refreshOk = (.apiError 401, []) := by
  constructor
  · simp [reqStep]
  · intro refreshOk
    simp [reqStep]

/-- C7 counterexample: three consecutive 5xx responses exhaust the
server-error budget after backoff sleeps of 1.5 s and 3 s, and the caller
receives `APIError` — the wrapper produced by the
`except aiohttp.ClientResponseError` clause — not the underlying HTTP
error itself. -/
theorem serverError_exhaustion_wraps_apiError :
    asyncRequest 30 [.status 500 none, .status 502 none, .status 503 none]
        true true = (.apiError 503, [3/2, 3]) ∧
    (ReqOutcome.apiError 503) ≠ (ReqOutcome.httpError 503) := by
  refine ⟨?_, by decide⟩
  norm_num [asyncRequest, reqStep, serverAttempts, rateLimitAttempts]

/-- C7 (amended): a 5xx response retries with doubling backoff (1.5 s at
the entry point) while attempts remain below the server budget of 3; once
the budget is exhausted the request fails with `APIError` wrapping the
HTTP error. -/
theorem serverError_retry_spec (rateDelay : ℚ) (code : ℕ)
    (ra : Option (Option ℚ)) (rest : List HttpAttempt) (attempt : ℕ)
    (serverDelay : ℚ) (retry refreshOk : Bool)
    (h5 : 500 ≤ code) (h6 : code < 600) :
    (attempt < serverAttempts →
      reqStep rateDelay (.status code ra :: rest) attempt serverDelay retry
          refreshOk =
        ((reqStep rateDelay rest (attempt + 1) (serverDelay * 2) retry
            refreshOk).1,
          serverDelay ::
            (reqStep rateDelay rest (attempt + 1) (serverDelay * 2) retry
              refreshOk).2)) ∧
    (serverAttempts ≤ attempt →
      reqStep rateDelay (.status code ra :: rest) attempt serverDelay retry
          refreshOk = (.apiError code, [])) := by
  have h401 : code ≠ 401 := by omega
  have h429 : code ≠ 429 := by omega
  constructor
  · intro hlt
    simp [reqStep, h401, h429, h5, h6, hlt]
  · intro hge
    have : ¬ attempt < serverAttempts := by omega
    simp [reqStep, h401, h429, h5, h6, this]

/-- Closed instance of `serverError_retry_spec`: a 500 at attempt 3 with
current backoff 6 s is terminal. -/
theorem serverError_retry_spec_witness :
    (500 ≤ 500) ∧ (500 < 600) ∧ (serverAttempts ≤ 3) ∧
    reqStep 30 [.status 500 none] 3 6 true true = (.apiError 500, []) :=
  ⟨by decide, by decide, by decide,
   (serverError_retry_spec 30 500 none [] 3 6 true true (by decide)
      (by decide)).2 (by decide)⟩

/-- C4: for every datetime (calendar date plus hour) and reset hour,
`_get_logical_day` returns the previous calendar date when the hour is
before the reset hour and today's calendar date otherwise; `predDate` is
genuinely the previous calendar date (`succDate` inverts it on valid
dates); and with `reset_hour = 2`, 2024-01-15 01:xx maps to `2024-01-14`
while 2024-01-15 02:xx maps to `2024-01-15`. -/
theorem getLogicalDay_spec (d : Date) (nowHour resetHour : ℕ)
    (hv : d.Valid) :
    (nowHour < resetHour →
      getLogicalDay d nowHour resetHour = (predDate d).isoformat) ∧
    (resetHour ≤ nowHour →
      getLogicalDay d nowHour resetHour = d.isoformat) ∧
    succDate (predDate d) = d ∧
    getLogicalDay ⟨2024, 1, 15⟩ 1 2 = "2024-01-14" ∧
    getLogicalDay ⟨2024, 1, 15⟩ 2 2 = "2024-01-15" := by
  refine ⟨?_, ?_, ?_, by decide, by decide⟩
  · intro h; simp [getLogicalDay, h]
  · intro h; simp [getLogicalDay, Nat.not_lt.mpr h]
  · obtain ⟨y, m, day⟩ := d
    obtain ⟨hy, hm1, hm2, hd1, hd2⟩ := hv
    replace hy : 1 ≤ y := hy
    replace hm1 : 1 ≤ m := hm1
    replace hm2 : m ≤ 12 := hm2
    replace hd1 : 1 ≤ day := hd1
    replace hd2 : day ≤ daysInMonth y m := hd2
    by_cases h1 : 1 < day
    · have e1 : predDate ⟨y, m, day⟩ = ⟨y, m, day - 1⟩ := by
        simp [predDate, h1]
      have hlt : day - 1 < daysInMonth y m := by omega
      have e2 : succDate ⟨y, m, day - 1⟩ = ⟨y, m, day - 1 + 1⟩ := by
        simp [succDate, hlt]
      rw [e1, e2]
      simp only [Date.mk.injEq, true_and, and_true]
      omega
    · have hday : day = 1 := by omega
      subst hday
      by_cases h2 : 1 < m
      · have e1 : predDate ⟨y, m, 1⟩ = ⟨y, m - 1, daysInMonth y (m - 1)⟩ := by
          simp [predDate, h2]
        have hirr : ¬ daysInMonth y (m - 1) < daysInMonth y (m - 1) :=
          lt_irrefl _
        have hm12 : m - 1 < 12 := by omega
        have e2 : succDate ⟨y, m - 1, daysInMonth y (m - 1)⟩ =
            ⟨y, m - 1 + 1, 1⟩ := by
          simp [succDate, hirr, hm12]
        rw [e1, e2]
        simp only [Date.mk.injEq, true_and, and_true]
        omega
      · have hm : m = 1 := by omega
        subst hm
        have e1 : predDate ⟨y, 1, 1⟩ = ⟨y - 1, 12, 31⟩ := by
          simp [predDate]
        have e2 : succDate ⟨y - 1, 12, 31⟩ = ⟨y - 1 + 1, 1, 1⟩ := by
          simp [succDate, daysInMonth]
        rw [e1, e2]
        simp only [Date.mk.injEq, true_and, and_true]
        omega

/-- Closed instance of `getLogicalDay_spec` at 2024-01-15, 01:30, reset
hour 2: the logical day is the previous calendar date 2024-01-14. -/
theorem getLogicalDay_spec_witness :
    Date.Valid ⟨2024, 1, 15⟩ ∧
    getLogicalDay ⟨2024, 1, 15⟩ 1 2 = "2024-01-14" :=
  ⟨by decide, (getLogicalDay_spec ⟨2024, 1, 15⟩ 1 2 (by decide)).2.2.2.1⟩

/-- C5: in the prologue of `async_update` — before the home-status fetch,
the override reconciliation and the energy fetch — a computed logical day
differing from the previously observed one clears the per-room energy
cache and the per-room heating-minutes counters together in the same
cycle; when the logical day is unchanged, or no previous day was
recorded, neither is cleared by this mechanism. -/
theorem resetCountersIfNewDay_spec (s : EnergyState)
    (currentLogicalDay : String) :
    (resetCountersIfNewDay s currentLogicalDay).lastLogicalDay =
      some currentLogicalDay ∧
    (∀ prev, s.lastLogicalDay = some prev → prev ≠ currentLogicalDay →
      (resetCountersIfNewDay s currentLogicalDay).energyCache = [] ∧
      (resetCountersIfNewDay s currentLogicalDay).minutesCounter = []) ∧
    (s.lastLogicalDay = none →
      (resetCountersIfNewDay s currentLogicalDay).energyCache =
        s.energyCache ∧
      (resetCountersIfNewDay s currentLogicalDay).minutesCounter =
        s.minutesCounter) ∧
    (s.lastLogicalDay = some currentLogicalDay →
      (resetCountersIfNewDay s currentLogicalDay).energyCache =
        s.energyCache ∧
      (resetCountersIfNewDay s currentLogicalDay).minutesCounter =
        s.minutesCounter) := by
  obtain ⟨cache, minutes, last⟩ := s
  rcases last with _ | prev
  · simp [resetCountersIfNewDay]
  · by_cases h : prev = currentLogicalDay <;>
      simp [resetCountersIfNewDay, h]

/-- Closed instance of `resetCountersIfNewDay_spec`: crossing from logical
day `2024-01-14` to `2024-01-15` clears both maps at once. -/
theorem resetCountersIfNewDay_spec_witness :
    (some "2024-01-14" = some "2024-01-14") ∧
    ("2024-01-14" ≠ "2024-01-15") ∧
    ((resetCountersIfNewDay ⟨[("r1", 2)], [("r1", 30)], some "2024-01-14"⟩
        "2024-01-15").energyCache = [] ∧
      (resetCountersIfNewDay ⟨[("r1", 2)], [("r1", 30)], some "2024-01-14"⟩
        "2024-01-15").minutesCounter = []) :=
  ⟨rfl, by decide,
   (resetCountersIfNewDay_spec
      ⟨[("r1", 2)], [("r1", 30)], some "2024-01-14"⟩ "2024-01-15").2.1
      "2024-01-14" rfl (by decide)⟩

/-! ### Helper lemmas about the reconciliation pass -/

/-- Whether the bounded-mode pass schedules room `r` for removal: its
override exists, is sticky, and has expired. -/
def expiredSticky (ovs : List (String × Override)) (nowTs : ℤ) (r : String) :
    Bool :=
  match ovLookup ovs r with
  | some ov => ov.sticky && decide (nowTs > ov.endTs)
  | none => false

theorem ovLookup_ovSet (l : List (String × Override)) (k : String)
    (v w : Override) (h : ovLookup l k = some w) :
    ovLookup (ovSet l k v) k = some v := by
  induction l with
  | nil => simp [ovLookup] at h
  | cons hd tl ih =>
      obtain ⟨a, b⟩ := hd
      by_cases hak : a = k
      · simp [ovSet, ovLookup, hak]
      · simp only [ovLookup, hak, if_false, ite_false] at h
        simp [ovSet, ovLookup, hak, ih h]

theorem ovLookup_filter_mem (l : List (String × Override))
    (clr : List String) (r : String) (h : r ∈ clr) :
    ovLookup (l.filter fun p => decide (p.1 ∉ clr)) r = none := by
  induction l with
  | nil => simp [ovLookup]
  | cons hd tl ih =>
      obtain ⟨a, b⟩ := hd
      by_cases ha : a ∈ clr
      · rw [List.filter_cons_of_neg (by simp [ha])]
        exact ih
      · rw [List.filter_cons_of_pos (by simp [ha])]
        have har : a ≠ r := fun he => ha (he ▸ h)
        simp only [ovLookup, har, if_false, ite_false]
        exact ih

theorem ovLookup_filter_not_mem (l : List (String × Override))
    (clr : List String) (r : String) (h : r ∉ clr) :
    ovLookup (l.filter fun p => decide (p.1 ∉ clr)) r = ovLookup l r := by
  induction l with
  | nil => simp
  | cons hd tl ih =>
      obtain ⟨a, b⟩ := hd
      by_cases har : a = r
      · subst har
        rw [List.filter_cons_of_pos (by simp [h])]
        simp [ovLookup]
      · by_cases ha : a ∈ clr
        · rw [List.filter_cons_of_neg (by simp [ha])]
          rw [ih]
          simp [ovLookup, har]
        · rw [List.filter_cons_of_pos (by simp [ha])]
          simp only [ovLookup, har, if_false, ite_false]
          exact ih

theorem roomStep_bounded (opts : Options) (nowTs : ℤ)
    (exec : String → ExecResult) (hind : opts.indefiniteMode = false)
    (st : RecState) (r : String) :
    roomStep opts nowTs exec st r =
      (if expiredSticky st.ovs nowTs r then
        { st with toClear := st.toClear ++ [r], changed := true,
                  expiries := st.expiries + 1 }
       else st, false) := by
  unfold roomStep expiredSticky
  cases hov : ovLookup st.ovs r with
  | none => simp
  | some ov =>
      cases hs : ov.sticky with
      | false => simp [hs]
      | true =>
          by_cases he : nowTs > ov.endTs
          · simp [hs, hind, he]
          · simp [hs, hind, he]

theorem foldRooms_bounded (opts : Options) (nowTs : ℤ)
    (exec : String → ExecResult) (hind : opts.indefiniteMode = false) :
    ∀ (rooms : List String) (st : RecState),
      foldRooms opts nowTs exec st rooms =
        ({ st with
            toClear :=
              st.toClear ++ rooms.filter (expiredSticky st.ovs nowTs),
            changed :=
              st.changed ||
                !(rooms.filter (expiredSticky st.ovs nowTs)).isEmpty,
            expiries :=
              st.expiries +
                (rooms.filter (expiredSticky st.ovs nowTs)).length }, false)
  | [], st => by simp [foldRooms]
  | r :: rest, st => by
      rw [foldRooms, roomStep_bounded opts nowTs exec hind]
      cases hq : expiredSticky st.ovs nowTs r with
      | true =>
          simp only [hq, if_true, ite_true]
          rw [foldRooms_bounded opts nowTs exec hind rest]
          rw [List.filter_cons_of_pos hq]
          simp [List.append_assoc]
          omega
      | false =>
          simp only [hq, Bool.false_eq_true, if_false, ite_false]
          rw [foldRooms_bounded opts nowTs exec hind rest]
          rw [List.filter_cons_of_neg (by simp [hq])]

theorem mem_orphans_iff (ovs0 : List (String × Override))
    (snapshotRooms : List String) (r : String) :
    r ∈ ((ovs0.filter fun p => decide (p.1 ∉ snapshotRooms)).map Prod.fst) ↔
      (∃ ov, (r, ov) ∈ ovs0) ∧ r ∉ snapshotRooms := by
  constructor
  · rintro hm
    obtain ⟨⟨a, b⟩, hab, hra⟩ := List.mem_map.mp hm
    obtain ⟨hmem, hcond⟩ := List.mem_filter.mp hab
    subst hra
    exact ⟨⟨b, hmem⟩, by simpa using hcond⟩
  · rintro ⟨⟨ov, hmem⟩, hnot⟩
    exact List.mem_map.mpr
      ⟨(r, ov), List.mem_filter.mpr ⟨hmem, by simpa using hnot⟩, rfl⟩

/-- C6 counterexample: with indefinite mode off, an override whose sticky
flag is false and whose `end` lies in the past is skipped by the per-room
loop and survives the cycle, contradicting "every override with
now > end_at is removed". -/
theorem nonsticky_expired_override_kept :
    (reconcileOverrides ⟨60, 240, 30, false⟩ 100 (fun _ => .ok) ["r1"]
        [("r1", ⟨"manual", some 21, 0, false, 0⟩)] true).ovs =
      [("r1", ⟨"manual", some 21, 0, false, 0⟩)] ∧
    (100 : ℤ) > 0 := by
  constructor
  · rfl
  · decide

/-- C6 (amended): after a reconciliation cycle with indefinite mode
disabled, no remote call is issued and nothing is raised; every override
whose room is absent from the snapshot is removed and the state is marked
dirty; every override present in the snapshot whose sticky flag is true
(the stored default) and whose `end_at` lies strictly in the past is
removed; every other override present in the snapshot — unexpired, or
with sticky explicitly false — is kept unchanged. -/
theorem bounded_mode_removal_spec (opts : Options) (nowTs : ℤ)
    (exec : String → ExecResult) (snapshotRooms : List String)
    (ovs0 : List (String × Override)) (savePresent : Bool)
    (hind : opts.indefiniteMode = false) :
    (reconcileOverrides opts nowTs exec snapshotRooms ovs0
        savePresent).raised = false ∧
    (reconcileOverrides opts nowTs exec snapshotRooms ovs0
        savePresent).calls = [] ∧
    (∀ r ov, (r, ov) ∈ ovs0 → r ∉ snapshotRooms →
      ovLookup (reconcileOverrides opts nowTs exec snapshotRooms ovs0
        savePresent).ovs r = none ∧
      (reconcileOverrides opts nowTs exec snapshotRooms ovs0
        savePresent).changed = true) ∧
    (∀ r ov, r ∈ snapshotRooms → ovLookup ovs0 r = some ov →
      ov.sticky = true → nowTs > ov.endTs →
      ovLookup (reconcileOverrides opts nowTs exec snapshotRooms ovs0
        savePresent).ovs r = none) ∧
    (∀ r ov, r ∈ snapshotRooms → ovLookup ovs0 r = some ov →
      (ov.sticky = false ∨ ¬ nowTs > ov.endTs) →
      ovLookup (reconcileOverrides opts nowTs exec snapshotRooms ovs0
        savePresent).ovs r = some ov) := by
  have hfold := foldRooms_bounded opts nowTs exec hind snapshotRooms
  simp only [reconcileOverrides]
  rw [hfold]
  simp only [ite_false, if_false, Bool.false_eq_true]
  refine ⟨by simp, by simp, ?_, ?_, ?_⟩
  · intro r ov hmem hnot
    have horph : r ∈ ((ovs0.filter fun p =>
        decide (p.1 ∉ snapshotRooms)).map Prod.fst) :=
      (mem_orphans_iff ovs0 snapshotRooms r).mpr ⟨⟨ov, hmem⟩, hnot⟩
    constructor
    · exact ovLookup_filter_mem _ _ _ (List.mem_append_left _ horph)
    · have hne : ((ovs0.filter fun p =>
          decide (p.1 ∉ snapshotRooms)).map Prod.fst) ≠ [] :=
        List.ne_nil_of_mem horph
      have hF : ((ovs0.filter fun p =>
          decide (p.1 ∉ snapshotRooms)).map Prod.fst).isEmpty = false := by
        simpa using hne
      simp only [hF]
      simp
  · intro r ov hsnap hov hsticky hexp
    have hq : expiredSticky ovs0 nowTs r = true := by
      simp [expiredSticky, hov, hsticky, hexp]
    have hmemE : r ∈ snapshotRooms.filter (expiredSticky ovs0 nowTs) :=
      List.mem_filter.mpr ⟨hsnap, hq⟩
    exact ovLookup_filter_mem _ _ _ (List.mem_append_right _ hmemE)
  · intro r ov hsnap hov hkeep
    have hq : expiredSticky ovs0 nowTs r = false := by
      rcases hkeep with hs | he
      · simp [expiredSticky, hov, hs]
      · simp [expiredSticky, hov, he]
    have hnoto : r ∉ ((ovs0.filter fun p =>
        decide (p.1 ∉ snapshotRooms)).map Prod.fst) := by
      intro hc
      exact ((mem_orphans_iff ovs0 snapshotRooms r).mp hc).2 hsnap
    have hnotE : r ∉ snapshotRooms.filter (expiredSticky ovs0 nowTs) := by
      intro hc
      have := (List.mem_filter.mp hc).2
      simp [hq] at this
    have hnot : r ∉ ((ovs0.filter fun p =>
        decide (p.1 ∉ snapshotRooms)).map Prod.fst) ++
        snapshotRooms.filter (expiredSticky ovs0 nowTs) := by
      intro hc
      rcases List.mem_append.mp hc with h | h
      · exact hnoto h
      · exact hnotE h
    rw [ovLookup_filter_not_mem _ _ _ hnot]
    exact hov

/-- Closed instance of `bounded_mode_removal_spec`: an expired sticky
override present in the snapshot is removed, an unexpired one kept. -/
theorem bounded_mode_removal_spec_witness :
    ((⟨60, 240, 30, false⟩ : Options).indefiniteMode = false) ∧
    ovLookup (reconcileOverrides ⟨60, 240, 30, false⟩ 100 (fun _ => .ok)
      ["r1", "r2"]
      [("r1", ⟨"manual", some 21, 0, true, 0⟩),
       ("r2", ⟨"manual", some 22, 500, true, 0⟩)] true).ovs "r1" = none ∧
    ovLookup (reconcileOverrides ⟨60, 240, 30, false⟩ 100 (fun _ => .ok)
      ["r1", "r2"]
      [("r1", ⟨"manual", some 21, 0, true, 0⟩),
       ("r2", ⟨"manual", some 22, 500, true, 0⟩)] true).ovs "r2" =
      some ⟨"manual", some 22, 500, true, 0⟩ :=
  ⟨rfl,
   (bounded_mode_removal_spec ⟨60, 240, 30, false⟩ 100 (fun _ => .ok)
      ["r1", "r2"]
      [("r1", ⟨"manual", some 21, 0, true, 0⟩),
       ("r2", ⟨"manual", some 22, 500, true, 0⟩)] true rfl).2.2.2.1 "r1"
      ⟨"manual", some 21, 0, true, 0⟩ (by decide) rfl rfl (by decide),
   (bounded_mode_removal_spec ⟨60, 240, 30, false⟩ 100 (fun _ => .ok)
      ["r1", "r2"]
      [("r1", ⟨"manual", some 21, 0, true, 0⟩),
       ("r2", ⟨"manual", some 22, 500, true, 0⟩)] true rfl).2.2.2.2 "r2"
      ⟨"manual", some 22, 500, true, 0⟩ (by decide) rfl
      (Or.inr (by decide))⟩

theorem roomStep_indef_pos (opts : Options) (nowTs : ℤ)
    (exec : String → ExecResult) (st : RecState) (roomId : String)
    (ov : Override) (hind : opts.indefiniteMode = true)
    (hov : ovLookup st.ovs roomId = some ov)
    (hsticky : ov.sticky = true)
    (hc1 : ov.endTs - nowTs ≤ reapplyBuffer)
    (hc2 : nowTs - ov.lastReapply ≥ minReapplyInterval) :
    roomStep opts nowTs exec st roomId =
      match exec roomId with
      | .ok =>
          ({ st with
              ovs := ovSet st.ovs roomId
                ⟨ov.mode, ov.temp,
                  nowTs + (resolveDuration opts ov.mode : ℤ) * 60, true,
                  nowTs⟩,
              changed := true,
              calls := st.calls ++
                [⟨roomId, ov.mode, ov.temp, resolveDuration opts ov.mode⟩],
              reapplies := st.reapplies + 1 }, false)
      | .errAuth =>
          ({ st with
              calls := st.calls ++
                [⟨roomId, ov.mode, ov.temp,
                  resolveDuration opts ov.mode⟩] }, true)
      | _ =>
          ({ st with
              calls := st.calls ++
                [⟨roomId, ov.mode, ov.temp,
                  resolveDuration opts ov.mode⟩] }, false) := by
  simp only [roomStep, hov, hsticky, hind, Bool.not_true,
    Bool.false_eq_true, if_false, ite_false, if_true, ite_true]
  rw [if_pos ⟨hc1, hc2⟩]

theorem roomStep_indef_neg (opts : Options) (nowTs : ℤ)
    (exec : String → ExecResult) (st : RecState) (roomId : String)
    (ov : Override) (hind : opts.indefiniteMode = true)
    (hov : ovLookup st.ovs roomId = some ov)
    (hsticky : ov.sticky = true)
    (hc : ¬ (ov.endTs - nowTs ≤ reapplyBuffer ∧
        nowTs - ov.lastReapply ≥ minReapplyInterval)) :
    roomStep opts nowTs exec st roomId = (st, false) := by
  simp only [roomStep, hov, hsticky, hind, Bool.not_true,
    Bool.false_eq_true, if_false, ite_false, if_true, ite_true]
  rw [if_neg hc]

/-- C2 counterexample: an `InvalidAuth` raised by the executor during a
reapply matches none of the caught exception classes and propagates,
aborting the poll cycle — the cycle does not "continue without raising"
on every executor failure. -/
theorem reapply_auth_failure_raises :
    (reconcileOverrides ⟨60, 240, 30, true⟩ 1000 (fun _ => .errAuth) ["r1"]
        [("r1", ⟨"manual", some 21, 1060, true, 0⟩)] true).raised = true ∧
    (reconcileOverrides ⟨60, 240, 30, true⟩ 1000 (fun _ => .errAuth) ["r1"]
        [("r1", ⟨"manual", some 21, 1060, true, 0⟩)] true).saves = 0 := by
  constructor <;> rfl

/-- C2 (amended): with indefinite mode on, for a sticky override of a room
present in the snapshot, the executor is called (with the override's mode,
temperature and the configured duration) exactly when
`end - now ≤ 300 ∧ now - last_reapply ≥ 120`; on success `end` becomes
`now + duration*60` and `last_reapply` becomes `now`; a failure with one
of the caught classes (`APIError`, `CannotConnect`, `RateLimitError`)
leaves the override map untouched and does not raise, while an
`InvalidAuth` failure propagates out of the cycle. -/
theorem indefinite_reapply_spec (opts : Options) (nowTs : ℤ)
    (exec : String → ExecResult) (st : RecState) (roomId : String)
    (ov : Override) (hind : opts.indefiniteMode = true)
    (hov : ovLookup st.ovs roomId = some ov)
    (hsticky : ov.sticky = true) :
    ((roomStep opts nowTs exec st roomId).1.calls =
      if ov.endTs - nowTs ≤ reapplyBuffer ∧
          nowTs - ov.lastReapply ≥ minReapplyInterval then
        st.calls ++
          [⟨roomId, ov.mode, ov.temp, resolveDuration opts ov.mode⟩]
      else st.calls) ∧
    (ov.endTs - nowTs ≤ reapplyBuffer →
      nowTs - ov.lastReapply ≥ minReapplyInterval →
      exec roomId = .ok →
      ovLookup (roomStep opts nowTs exec st roomId).1.ovs roomId =
        some ⟨ov.mode, ov.temp,
          nowTs + (resolveDuration opts ov.mode : ℤ) * 60, true, nowTs⟩ ∧
      (roomStep opts nowTs exec st roomId).2 = false) ∧
    (ov.endTs - nowTs ≤ reapplyBuffer →
      nowTs - ov.lastReapply ≥ minReapplyInterval →
      caughtByReapplyHandler (exec roomId) = true →
      (roomStep opts nowTs exec st roomId).1.ovs = st.ovs ∧
      (roomStep opts nowTs exec st roomId).2 = false) ∧
    (ov.endTs - nowTs ≤ reapplyBuffer →
      nowTs - ov.lastReapply ≥ minReapplyInterval →
      exec roomId = .errAuth →
      (roomStep opts nowTs exec st roomId).2 = true) ∧
    (¬ (ov.endTs - nowTs ≤ reapplyBuffer ∧
        nowTs - ov.lastReapply ≥ minReapplyInterval) →
      (roomStep opts nowTs exec st roomId).1 = st ∧
      (roomStep opts nowTs exec st roomId).2 = false) := by
  refine ⟨?_, ?_, ?_, ?_, ?_⟩
  · by_cases hc : ov.endTs - nowTs ≤ reapplyBuffer ∧
        nowTs - ov.lastReapply ≥ minReapplyInterval
    · rw [if_pos hc,
        roomStep_indef_pos opts nowTs exec st roomId ov hind hov hsticky
          hc.1 hc.2]
      cases hexec : exec roomId <;> rfl
    · rw [if_neg hc,
        roomStep_indef_neg opts nowTs exec st roomId ov hind hov hsticky hc]
  · intro h1 h2 hexec
    rw [roomStep_indef_pos opts nowTs exec st roomId ov hind hov hsticky
      h1 h2, hexec]
    exact ⟨ovLookup_ovSet st.ovs roomId _ ov hov, rfl⟩
  · intro h1 h2 hexec
    rw [roomStep_indef_pos opts nowTs exec st roomId ov hind hov hsticky
      h1 h2]
    cases he : exec roomId <;> rw [he] at hexec <;>
      simp [caughtByReapplyHandler] at hexec <;> exact ⟨rfl, rfl⟩
  · intro h1 h2 hexec
    rw [roomStep_indef_pos opts nowTs exec st roomId ov hind hov hsticky
      h1 h2, hexec]
  · intro hc
    rw [roomStep_indef_neg opts nowTs exec st roomId ov hind hov hsticky hc]
    exact ⟨rfl, rfl⟩

/-- Closed instance of `indefinite_reapply_spec`: a sticky manual override
60 s from expiry and never reapplied is pushed again and both timestamps
move forward. -/
theorem indefinite_reapply_spec_witness :
    ((⟨60, 240, 30, true⟩ : Options).indefiniteMode = true) ∧
    ovLookup [("r1", (⟨"manual", some 21, 1060, true, 0⟩ : Override))]
      "r1" = some ⟨"manual", some 21, 1060, true, 0⟩ ∧
    ((1060 : ℤ) - 1000 ≤ reapplyBuffer) ∧
    ((1000 : ℤ) - 0 ≥ minReapplyInterval) ∧
    ovLookup (roomStep ⟨60, 240, 30, true⟩ 1000 (fun _ => .ok)
        ⟨[("r1", ⟨"manual", some 21, 1060, true, 0⟩)], [], false, [], 0, 0⟩
        "r1").1.ovs "r1" =
      some ⟨"manual", some 21, 1000 + 60 * 60, true, 1000⟩ :=
  ⟨rfl, rfl, by decide, by decide, by
    have h := (indefinite_reapply_spec ⟨60, 240, 30, true⟩ 1000
      (fun _ => .ok)
      ⟨[("r1", ⟨"manual", some 21, 1060, true, 0⟩)], [], false, [], 0, 0⟩
      "r1" ⟨"manual", some 21, 1060, true, 0⟩ rfl rfl rfl).2.1
      (by decide) (by decide) rfl
    exact h.1⟩

/-- C10: during indefinite-mode reconciliation of a sticky override whose
mode is neither `"away"` nor `"boost"` (in particular the frost-protect
mode `"hg"` stored by the preset handler), the duration passed to the
executor is the configured manual duration, not a frost-protect-specific
one. -/
theorem reapply_duration_manual_spec (opts : Options) (nowTs : ℤ)
    (exec : String → ExecResult) (st : RecState) (roomId : String)
    (ov : Override) (hind : opts.indefiniteMode = true)
    (hov : ovLookup st.ovs roomId = some ov)
    (hsticky : ov.sticky = true)
    (hna : ov.mode ≠ "away") (hnb : ov.mode ≠ "boost")
    (hc1 : ov.endTs - nowTs ≤ reapplyBuffer)
    (hc2 : nowTs - ov.lastReapply ≥ minReapplyInterval) :
    resolveDuration opts ov.mode = opts.manualDuration ∧
    (roomStep opts nowTs exec st roomId).1.calls =
      st.calls ++ [⟨roomId, ov.mode, ov.temp, opts.manualDuration⟩] := by
  have hdur : resolveDuration opts ov.mode = opts.manualDuration := by
    simp [resolveDuration, hna, hnb]
  refine ⟨hdur, ?_⟩
  rw [roomStep_indef_pos opts nowTs exec st roomId ov hind hov hsticky
    hc1 hc2]
  cases hexec : exec roomId <;> simp [hdur]

/-- Closed instance of `reapply_duration_manual_spec`: an `"hg"`
(frost-protect) override is reapplied with the manual duration (60). -/
theorem reapply_duration_manual_spec_witness :
    ("hg" ≠ "away") ∧ ("hg" ≠ "boost") ∧
    (roomStep ⟨60, 240, 30, true⟩ 1000 (fun _ => .ok)
        ⟨[("r1", ⟨"hg", some 7, 1060, true, 0⟩)], [], false, [], 0, 0⟩
        "r1").1.calls = [⟨"r1", "hg", some 7, 60⟩] :=
  ⟨by decide, by decide, by
    have h := (reapply_duration_manual_spec ⟨60, 240, 30, true⟩ 1000
      (fun _ => .ok)
      ⟨[("r1", ⟨"hg", some 7, 1060, true, 0⟩)], [], false, [], 0, 0⟩
      "r1" ⟨"hg", some 7, 1060, true, 0⟩ rfl rfl rfl (by decide)
      (by decide) (by decide) (by decide)).2
    simpa using h⟩

theorem roomStep_changed_cases (opts : Options) (nowTs : ℤ)
    (exec : String → ExecResult) (st : RecState) (r : String) :
    ((roomStep opts nowTs exec st r).1.changed = st.changed ∧
      (roomStep opts nowTs exec st r).1.reapplies = st.reapplies ∧
      (roomStep opts nowTs exec st r).1.expiries = st.expiries) ∨
    ((roomStep opts nowTs exec st r).1.changed = true ∧
      (0 < (roomStep opts nowTs exec st r).1.reapplies ∨
        0 < (roomStep opts nowTs exec st r).1.expiries)) := by
  cases hov : ovLookup st.ovs r with
  | none => left; simp [roomStep, hov]
  | some ov =>
      cases hs : ov.sticky with
      | false => left; simp [roomStep, hov, hs]
      | true =>
          cases hind : opts.indefiniteMode with
          | true =>
              by_cases hc : ov.endTs - nowTs ≤ reapplyBuffer ∧
                  nowTs - ov.lastReapply ≥ minReapplyInterval
              · rw [roomStep_indef_pos opts nowTs exec st r ov hind hov hs
                  hc.1 hc.2]
                cases hexec : exec r
                · right; exact ⟨rfl, Or.inl (Nat.succ_pos _)⟩
                · left; exact ⟨rfl, rfl, rfl⟩
                · left; exact ⟨rfl, rfl, rfl⟩
                · left; exact ⟨rfl, rfl, rfl⟩
                · left; exact ⟨rfl, rfl, rfl⟩
              · rw [roomStep_indef_neg opts nowTs exec st r ov hind hov
                  hs hc]
                left; exact ⟨rfl, rfl, rfl⟩
          | false =>
              by_cases he : nowTs > ov.endTs
              · right
                constructor
                · simp [roomStep, hov, hs, hind, he]
                · refine Or.inr ?_
                  simp [roomStep, hov, hs, hind, he]
              · left
                refine ⟨?_, ?_, ?_⟩ <;> simp [roomStep, hov, hs, hind, he]

theorem foldRooms_changed (opts : Options) (nowTs : ℤ)
    (exec : String → ExecResult) (b : Bool) :
    ∀ (rooms : List String) (st : RecState),
      st.changed =
        (b || decide (0 < st.reapplies) || decide (0 < st.expiries)) →
      (foldRooms opts nowTs exec st rooms).1.changed =
        (b ||
          decide (0 < (foldRooms opts nowTs exec st rooms).1.reapplies) ||
          decide (0 < (foldRooms opts nowTs exec st rooms).1.expiries))
  | [], st, hP => by simpa [foldRooms] using hP
  | r :: rest, st, hP => by
      have hstep : (roomStep opts nowTs exec st r).1.changed =
          (b || decide (0 < (roomStep opts nowTs exec st r).1.reapplies) ||
            decide (0 < (roomStep opts nowTs exec st r).1.expiries)) := by
        rcases roomStep_changed_cases opts nowTs exec st r with
          ⟨h1, h2, h3⟩ | ⟨h1, h2⟩
        · rw [h1, h2, h3]; exact hP
        · rw [h1]
          rcases h2 with h | h
          · have : decide (0 < (roomStep opts nowTs exec st r).1.reapplies)
                = true := by simpa using h
            simp [this]
          · have : decide (0 < (roomStep opts nowTs exec st r).1.expiries)
                = true := by simpa using h
            simp [this]
      rw [foldRooms]
      cases hraise : (roomStep opts nowTs exec st r).2 with
      | true => simpa [hraise] using hstep
      | false =>
          simp only [hraise, Bool.false_eq_true, if_false, ite_false]
          exact foldRooms_changed opts nowTs exec b rest _ hstep

theorem reconcile_saves_changed (opts : Options) (nowTs : ℤ)
    (exec : String → ExecResult) (snapshotRooms : List String)
    (ovs0 : List (String × Override)) (savePresent : Bool)
    (hok : (reconcileOverrides opts nowTs exec snapshotRooms ovs0
        savePresent).raised = false) :
    ((reconcileOverrides opts nowTs exec snapshotRooms ovs0
        savePresent).saves =
      if (reconcileOverrides opts nowTs exec snapshotRooms ovs0
          savePresent).changed && savePresent then 1 else 0) ∧
    ((reconcileOverrides opts nowTs exec snapshotRooms ovs0
        savePresent).changed =
      (!(reconcileOverrides opts nowTs exec snapshotRooms ovs0
          savePresent).orphans.isEmpty ||
        decide (0 < (reconcileOverrides opts nowTs exec snapshotRooms ovs0
          savePresent).reapplies) ||
        decide (0 < (reconcileOverrides opts nowTs exec snapshotRooms ovs0
          savePresent).expiries))) := by
  simp only [reconcileOverrides] at hok ⊢
  set orph :=
    (ovs0.filter fun p => decide (p.1 ∉ snapshotRooms)).map Prod.fst
    with horph
  set stInit : RecState := ⟨ovs0, orph, !orph.isEmpty, [], 0, 0⟩
    with hstInit
  set F := foldRooms opts nowTs exec stInit snapshotRooms with hFdef
  cases hF2 : F.2 with
  | true => simp [hF2] at hok
  | false =>
      rw [if_neg Bool.false_ne_true]
      constructor
      · rfl
      · have hinit : stInit.changed =
            (!orph.isEmpty || decide (0 < stInit.reapplies) ||
              decide (0 < stInit.expiries)) := by
          simp [hstInit]
        have hch := foldRooms_changed opts nowTs exec (!orph.isEmpty)
          snapshotRooms stInit hinit
        rw [← hFdef] at hch
        exact hch

/-- C9: on a reconciliation cycle that completes without a propagated
exception and with the persistence hook registered, the hook is invoked
exactly once when the override set changed this cycle — an orphan sweep
removed an entry, a reapply succeeded, or an expiry was recorded — and is
not invoked at all otherwise. -/
theorem persistence_once_spec (opts : Options) (nowTs : ℤ)
    (exec : String → ExecResult) (snapshotRooms : List String)
    (ovs0 : List (String × Override))
    (hok : (reconcileOverrides opts nowTs exec snapshotRooms ovs0
        true).raised = false) :
    ((reconcileOverrides opts nowTs exec snapshotRooms ovs0 true).saves = 1
      ↔ ((reconcileOverrides opts nowTs exec snapshotRooms ovs0
          true).orphans ≠ [] ∨
        0 < (reconcileOverrides opts nowTs exec snapshotRooms ovs0
          true).reapplies ∨
        0 < (reconcileOverrides opts nowTs exec snapshotRooms ovs0
          true).expiries)) ∧
    ((reconcileOverrides opts nowTs exec snapshotRooms ovs0 true).saves = 0
      ↔ ¬ ((reconcileOverrides opts nowTs exec snapshotRooms ovs0
          true).orphans ≠ [] ∨
        0 < (reconcileOverrides opts nowTs exec snapshotRooms ovs0
          true).reapplies ∨
        0 < (reconcileOverrides opts nowTs exec snapshotRooms ovs0
          true).expiries)) := by
  obtain ⟨hsaves, hch⟩ := reconcile_saves_changed opts nowTs exec
    snapshotRooms ovs0 true hok
  rw [Bool.and_true] at hsaves
  constructor
  · rw [hsaves, hch]
    cases hE : (reconcileOverrides opts nowTs exec snapshotRooms ovs0
        true).orphans.isEmpty <;>
      by_cases hR : 0 < (reconcileOverrides opts nowTs exec snapshotRooms
        ovs0 true).reapplies <;>
      by_cases hX : 0 < (reconcileOverrides opts nowTs exec snapshotRooms
        ovs0 true).expiries <;>
      simp_all [List.isEmpty_iff, List.isEmpty_eq_false]
  · rw [hsaves, hch]
    cases hE : (reconcileOverrides opts nowTs exec snapshotRooms ovs0
        true).orphans.isEmpty <;>
      by_cases hR : 0 < (reconcileOverrides opts nowTs exec snapshotRooms
        ovs0 true).reapplies <;>
      by_cases hX : 0 < (reconcileOverrides opts nowTs exec snapshotRooms
        ovs0 true).expiries <;>
      simp_all [List.isEmpty_iff, List.isEmpty_eq_false]

/-- Closed instance of `persistence_once_spec`: an expiry marks the cycle
changed and the hook runs exactly once; an untouched cycle never persists. -/
theorem persistence_once_spec_witness :
    ((reconcileOverrides ⟨60, 240, 30, false⟩ 100 (fun _ => .ok) ["r1"]
        [("r1", ⟨"manual", some 21, 0, true, 0⟩)] true).raised = false) ∧
    ((reconcileOverrides ⟨60, 240, 30, false⟩ 100 (fun _ => .ok) ["r1"]
        [("r1", ⟨"manual", some 21, 0, true, 0⟩)] true).saves = 1 ↔
      ((reconcileOverrides ⟨60, 240, 30, false⟩ 100 (fun _ => .ok) ["r1"]
          [("r1", ⟨"manual", some 21, 0, true, 0⟩)] true).orphans ≠ [] ∨
        0 < (reconcileOverrides ⟨60, 240, 30, false⟩ 100 (fun _ => .ok)
          ["r1"] [("r1", ⟨"manual", some 21, 0, true, 0⟩)]
          true).reapplies ∨
        0 < (reconcileOverrides ⟨60, 240, 30, false⟩ 100 (fun _ => .ok)
          ["r1"] [("r1", ⟨"manual", some 21, 0, true, 0⟩)]
          true).expiries)) :=
  ⟨rfl,
   (persistence_once_spec ⟨60, 240, 30, false⟩ 100 (fun _ => .ok) ["r1"]
      [("r1", ⟨"manual", some 21, 0, true, 0⟩)] rfl).1⟩

end Intuis
